import Mathlib

/-!
Shallow embedding of the `radical_algebra` Python package
(`ids.py`, `character_db.py`, `core.py`, `validation.py`, `tensor.py`)
and proofs checking the specification's claims against it.

Modelling conventions:
- Python `str` is Lean `String`; iterating a Python string yields its
  one-character substrings, modelled by `strChars`.
- Python `dict` built from an association list uses last-write-wins
  semantics, modelled by `dictGet` (scan the reversed list).
- Python `set` is `Finset`.
- Raised exceptions are `Except PyError`; `PyError` constructors mirror the
  Python exception classes raised by the package.
- `functools.lru_cache` memoisation only caches pure functions, so it is
  semantically invisible; the embedding uses the plain recursion.
-/

set_option maxRecDepth 100000

/-- Python exception classes raised by the package, one constructor per class. -/
inductive PyError where
  | valueError (msg : String)
  | typeError (msg : String)
  | indexError (msg : String)
  | invalidRankError (msg : String)
  | invalidRadicalError (msg : String)
  | simplifiedChineseError (msg : String)
deriving DecidableEq

/-- The Python class name of an exception value. -/
def pyErrorKind : PyError → String
  | .valueError _ => "ValueError"
  | .typeError _ => "TypeError"
  | .indexError _ => "IndexError"
  | .invalidRankError _ => "InvalidRankError"
  | .invalidRadicalError _ => "InvalidRadicalError"
  | .simplifiedChineseError _ => "SimplifiedChineseError"

instance instDecEqExcept {ε α : Type} [DecidableEq ε] [DecidableEq α] :
    DecidableEq (Except ε α) := fun x y =>
  match x, y with
  | .ok a, .ok b =>
    if h : a = b then .isTrue (by rw [h]) else .isFalse (by intro hc; cases hc; exact h rfl)
  | .error a, .error b =>
    if h : a = b then .isTrue (by rw [h]) else .isFalse (by intro hc; cases hc; exact h rfl)
  | .ok _, .error _ => .isFalse (by intro hc; cases hc)
  | .error _, .ok _ => .isFalse (by intro hc; cases hc)

/-- The one-character substrings of a string, in order: Python `for c in s`. -/
def strChars (s : String) : List String := s.toList.map String.singleton

/-- Last-write-wins lookup in an association list: the semantics of
`dict(pairs).get(k)` when `pairs` are assigned in list order. -/
def dictGet {α β : Type} [BEq α] (d : List (α × β)) (k : α) : Option β :=
  (d.reverse.find? (fun p => p.1 == k)).map (fun p => p.2)

/-- Lexicographic code-point comparison of char lists: Python `<=` on strings. -/
def lexLe : List Char → List Char → Bool
  | [], _ => true
  | _ :: _, [] => false
  | x :: xs, y :: ys =>
    if x.toNat < y.toNat then true
    else if y.toNat < x.toNat then false
    else lexLe xs ys

theorem lexLe_total (a b : List Char) : lexLe a b = true ∨ lexLe b a = true := by
  induction a generalizing b with
  | nil => left; rfl
  | cons x xs ih =>
    cases b with
    | nil => right; rfl
    | cons y ys =>
      simp only [lexLe]
      rcases Nat.lt_trichotomy x.toNat y.toNat with h | h | h
      · left; simp [h]
      · rcases ih ys with h2 | h2 <;> [left; right] <;> simp [h, h2]
      · right; simp [h]

theorem lexLe_trans (a b c : List Char) (h1 : lexLe a b = true) (h2 : lexLe b c = true) :
    lexLe a c = true := by
  induction a generalizing b c with
  | nil => rfl
  | cons x xs ih =>
    cases b with
    | nil => simp [lexLe] at h1
    | cons y ys =>
      cases c with
      | nil => simp [lexLe] at h2
      | cons z zs =>
        simp only [lexLe] at h1 h2 ⊢
        rcases Nat.lt_trichotomy x.toNat y.toNat with hxy | hxy | hxy
        · rcases Nat.lt_trichotomy y.toNat z.toNat with hyz | hyz | hyz
          · simp [Nat.lt_trans hxy hyz]
          · simp [hyz ▸ hxy]
          · simp [hyz, Nat.lt_asymm hyz] at h2
        · rcases Nat.lt_trichotomy y.toNat z.toNat with hyz | hyz | hyz
          · simp [hxy ▸ hyz]
          · have hxz : x.toNat = z.toNat := hxy.trans hyz
            simp only [hxy, hyz, Nat.lt_irrefl, if_false] at h1 h2
            simp only [hxz, Nat.lt_irrefl, if_false]
            exact ih ys zs h1 h2
          · simp [hyz, Nat.lt_asymm hyz] at h2
        · simp [hxy, Nat.lt_asymm hxy] at h1

theorem lexLe_antisymm (a b : List Char) (h1 : lexLe a b = true) (h2 : lexLe b a = true) :
    a = b := by
  induction a generalizing b with
  | nil =>
    cases b with
    | nil => rfl
    | cons y ys => simp [lexLe] at h2
  | cons x xs ih =>
    cases b with
    | nil => simp [lexLe] at h1
    | cons y ys =>
      simp only [lexLe] at h1 h2
      rcases Nat.lt_trichotomy x.toNat y.toNat with h | h | h
      · simp [h, Nat.lt_asymm h] at h2
      · have hx : x = y := Char.eq_of_val_eq (UInt32.ext h)
        simp only [h, Nat.lt_irrefl, if_false] at h1 h2
        rw [hx, ih ys h1 h2]
      · simp [h, Nat.lt_asymm h] at h1

/-- Python string comparison as a relation, for sorting component keys. -/
def strLe (a b : String) : Prop := lexLe a.toList b.toList = true

instance : DecidableRel strLe := fun _ _ => inferInstanceAs (Decidable (_ = true))

instance : IsTotal String strLe := ⟨fun a b => lexLe_total a.toList b.toList⟩

instance : IsTrans String strLe := ⟨fun a b c => lexLe_trans a.toList b.toList c.toList⟩

instance : IsAntisymm String strLe :=
  ⟨fun a b h1 h2 => String.ext (lexLe_antisymm a.toList b.toList h1 h2)⟩

/-- Python `sorted` on a list of strings. -/
def sortStrings (l : List String) : List String := List.insertionSort strLe l

theorem sortStrings_perm_eq {l l' : List String} (h : List.Perm l l') :
    sortStrings l = sortStrings l' :=
  List.eq_of_perm_of_sorted
    ((List.perm_insertionSort strLe l).trans (h.trans (List.perm_insertionSort strLe l').symm))
    (List.sorted_insertionSort strLe l) (List.sorted_insertionSort strLe l')

/-- Python comparison of `(str, int)` tuples, used to sort `dict.items()`. -/
def pairLe (a b : String × Nat) : Prop :=
  (if a.1 == b.1 then a.2 ≤ b.2 else strLe a.1 b.1)

instance : DecidableRel pairLe := fun a b =>
  inferInstanceAs (Decidable (if a.1 == b.1 then a.2 ≤ b.2 else strLe a.1 b.1))

/-- Python `sorted(counts.items())`. -/
def sortPairs (l : List (String × Nat)) : List (String × Nat) := List.insertionSort pairLe l

/-! ### ids.py -/

/-- `IDSOperator` dataclass from `ids.py`. -/
structure IDSOperator where
  symbol : String
  arity : Nat
  name : String
deriving DecidableEq

/-- `BINARY_OPS` tuple from `ids.py`. -/
def BINARY_OPS : List IDSOperator :=
  [⟨"⿰", 2, "LEFT_RIGHT"⟩, ⟨"⿱", 2, "TOP_BOTTOM"⟩, ⟨"⿴", 2, "SURROUND_FULL"⟩,
   ⟨"⿵", 2, "SURROUND_ABOVE"⟩, ⟨"⿶", 2, "SURROUND_BELOW"⟩, ⟨"⿷", 2, "SURROUND_LEFT"⟩,
   ⟨"⿸", 2, "SURROUND_UPPER_LEFT"⟩, ⟨"⿹", 2, "SURROUND_UPPER_RIGHT"⟩,
   ⟨"⿺", 2, "SURROUND_LOWER_LEFT"⟩, ⟨"⿻", 2, "OVERLAID"⟩]

/-- `TERNARY_OPS` tuple from `ids.py`. -/
def TERNARY_OPS : List IDSOperator :=
  [⟨"⿲", 3, "LEFT_MID_RIGHT"⟩, ⟨"⿳", 3, "TOP_MID_BOTTOM"⟩]

/-- `IDSStructure` dataclass from `ids.py`: a nullable operator and a children
tuple (leaves have operator `none` and no children). -/
inductive IDSStructure where
  | node (operator : Option IDSOperator) (children : List IDSStructure)

def IDSStructure.operator : IDSStructure → Option IDSOperator
  | .node op _ => op

def IDSStructure.children : IDSStructure → List IDSStructure
  | .node _ cs => cs

/-- `IDSStructure.is_leaf`: true when the operator field is `None`. -/
def IDSStructure.is_leaf (s : IDSStructure) : Bool := s.operator.isNone

mutual
/-- `IDSStructure.component_count`: 1 for a leaf, else the children's total. -/
def IDSStructure.component_count : IDSStructure → Nat
  | .node none _ => 1
  | .node (some _) cs => componentCountList cs
/-- Sum of `component_count` over a children list. -/
def componentCountList : List IDSStructure → Nat
  | [] => 0
  | c :: cs => c.component_count + componentCountList cs
end

/-- `LEAF` constant from `ids.py`. -/
def LEAF : IDSStructure := .node none []

/-- One unfolding of the `enumerate_structures` body, with the recursive
occurrences abstracted as `enum`. Loop structure mirrors the source: for each
binary operator, each split `k ∈ range(1, n)` pairs `enum k × enum (n-k)`;
for `n ≥ 3`, each ternary operator and each `i ∈ range(1, n-1)`,
`j ∈ range(1, n-i)` (with the source's redundant `k < 1` guard) triples
`enum i × enum j × enum k`. -/
def enumBody (enum : Nat → List IDSStructure) (n : Nat) : List IDSStructure :=
  if n == 1 then [LEAF] else
    (BINARY_OPS.flatMap fun op =>
      (List.range' 1 (n - 1)).flatMap fun k =>
        (enum k).flatMap fun left =>
          (enum (n - k)).map fun right => IDSStructure.node (some op) [left, right])
    ++
    (if n ≥ 3 then
      TERNARY_OPS.flatMap fun op =>
        (List.range' 1 (n - 2)).flatMap fun i =>
          (List.range' 1 (n - i - 1)).flatMap fun j =>
            let k := n - i - j
            if k < 1 then [] else
              (enum i).flatMap fun left =>
                (enum j).flatMap fun mid =>
                  (enum k).map fun right => IDSStructure.node (some op) [left, mid, right]
     else [])

/-- Fuel-indexed recursion for `enumerate_structures`; every recursive call in
the source strictly decreases `n`, so fuel `n` suffices (`enumAuxFuel_stable`). -/
def enumAuxFuel : Nat → Nat → List IDSStructure
  | 0, _ => []
  | f + 1, n => enumBody (enumAuxFuel f) n

/-- `enumerate_structures` for `n ≥ 1` (the domain the source recurses over). -/
def enumAux (n : Nat) : List IDSStructure := enumAuxFuel n n

/-- `enumerate_structures` from `ids.py`: raises `ValueError` for `n < 1`. -/
def enumerate_structures (n : Int) : Except PyError (List IDSStructure) :=
  if n < 1 then .error (.valueError "n must be at least 1") else .ok (enumAux n.toNat)

mutual
/-- The inner `_build` closure of `build_ids_string`: threads the consumption
index through a pre-order traversal; a leaf reads `rad_iter[idx]` (IndexError
if out of range) and advances the index. -/
def buildAux : IDSStructure → List String → Nat → Except PyError (String × Nat)
  | .node none _, radIter, idx =>
    match radIter[idx]? with
    | some r => .ok (r, idx + 1)
    | none => .error (.indexError "list index out of range")
  | .node (some op) cs, radIter, idx =>
    match buildAuxList cs radIter idx with
    | .error e => .error e
    | .ok (s, idx') => .ok (op.symbol ++ s, idx')
/-- Traversal of a children tuple, left to right, threading the index. -/
def buildAuxList : List IDSStructure → List String → Nat → Except PyError (String × Nat)
  | [], _, idx => .ok ("", idx)
  | c :: cs, radIter, idx =>
    match buildAux c radIter idx with
    | .error e => .error e
    | .ok (s1, idx1) =>
      match buildAuxList cs radIter idx1 with
      | .error e => .error e
      | .ok (s2, idx2) => .ok (s1 ++ s2, idx2)
end

/-- `build_ids_string` from `ids.py`: `ValueError` when the radical count does
not match the structure's component count, else the pre-order serialization. -/
def build_ids_string (s : IDSStructure) (radicals : List String) :
    Except PyError String :=
  if radicals.length ≠ s.component_count then
    .error (.valueError "Structure requires component_count radicals")
  else
    match buildAux s radicals 0 with
    | .error e => .error e
    | .ok (out, _) => .ok out

mutual
/-- Specification-side serialization (refinement target for `build_ids_string`):
pre-order traversal that consumes the component list from the front, returning
the serialized string and the unconsumed suffix. -/
def serializeSpec : IDSStructure → List String → String × List String
  | .node none _, rads => (rads.headD "", rads.tail)
  | .node (some op) cs, rads =>
    let p := serializeSpecList cs rads
    (op.symbol ++ p.1, p.2)
/-- List version of `serializeSpec`, consuming left to right. -/
def serializeSpecList : List IDSStructure → List String → String × List String
  | [], rads => ("", rads)
  | c :: cs, rads =>
    let p1 := serializeSpec c rads
    let p2 := serializeSpecList cs p1.2
    (p1.1 ++ p2.1, p2.2)
end

/-! ### character_db.py -/

/-- `IDS_OPERATORS` frozenset from `character_db.py` (one-character strings). -/
def IDS_OPERATORS : List String :=
  ["⿰", "⿱", "⿲", "⿳", "⿴", "⿵", "⿶", "⿷", "⿸", "⿹", "⿺", "⿻"]

/-- `WU_XING_RADICALS` frozenset from `character_db.py`. -/
def WU_XING_RADICALS : List String := ["金", "木", "水", "火", "土"]

/-- `result[radical] += count` on a `defaultdict(int)` kept as an insertion-order
association list. -/
def incrCount (m : List (String × Nat)) (key : String) (delta : Nat) :
    List (String × Nat) :=
  if m.any (fun p => p.1 == key) then
    m.map (fun p => if p.1 == key then (p.1, p.2 + delta) else p)
  else m ++ [(key, delta)]

/-- Merge a sub-count dictionary into an accumulator, as the
`for radical, count in sub_counts.items(): result[radical] += count` loop. -/
def addCounts (acc sub : List (String × Nat)) : List (String × Nat) :=
  sub.foldl (fun m p => incrCount m p.1 p.2) acc

/-- `dict(Counter(xs))`: counts keyed in first-occurrence order. -/
def counterItems (xs : List String) : List (String × Nat) :=
  xs.foldl (fun m x => incrCount m x 1) []

/-- Body of `_count_wu_xing_radicals`, indexed by remaining depth budget
(`fuel = 11 - depth`, see `count_wu_xing_radicals`): fuel 0 is the
`depth > 10` overflow, returning `None`; a stop radical contributes itself
once; a character whose recorded decomposition is missing, empty, or does not
start with an IDS operator is not expandable (`None`); otherwise every
non-operator character of the decomposition is expanded recursively, `None`
propagating, and an empty total also yields `None`. -/
def countWuXingAux (idsData : List (String × String)) (stopRadicals : List String) :
    Nat → String → Option (List (String × Nat))
  | 0, _ => none
  | fuel + 1, char =>
    if char ∈ stopRadicals then some [(char, 1)]
    else
      let ids := (dictGet idsData char).getD ""
      match strChars ids with
      | [] => none
      | c0 :: _ =>
        if c0 ∉ IDS_OPERATORS then none
        else
          let folded := (strChars ids).foldlM (fun acc c =>
            if c ∈ IDS_OPERATORS then some acc
            else
              match countWuXingAux idsData stopRadicals fuel c with
              | none => none
              | some sub => some (addCounts acc sub)) []
          match folded with
          | none => none
          | some result => if result.isEmpty then none else some result

/-- `_count_wu_xing_radicals` from `character_db.py`. The source guard
`if depth > 10: return None` and the `depth + 1` recursion are re-indexed by
the remaining budget `11 - depth`, an exact translation: `11 - depth = 0` iff
`depth > 10`, and `11 - (depth + 1) = (11 - depth) - 1`. -/
def count_wu_xing_radicals (idsData : List (String × String))
    (stopRadicals : List String) (char : String) (depth : Nat) :
    Option (List (String × Nat)) :=
  countWuXingAux idsData stopRadicals (11 - depth) char

/-- `CharacterDatabase` from `character_db.py`, holding the
character-to-decomposition mapping it was constructed from (`_char_to_ids`);
the derived indices are expressed as reads over it. -/
structure CharacterDatabase where
  char_to_ids : List (String × String)
deriving DecidableEq

/-- `CharacterDatabase.lookup_by_ids`: reads the reverse index
`_ids_to_char = {ids: char for char, ids in char_to_ids.items()}`, in which a
later record with the same decomposition string overwrites an earlier one;
returns the character or `None`. -/
def CharacterDatabase.lookup_by_ids (db : CharacterDatabase) (ids_string : String) :
    Option String :=
  (db.char_to_ids.reverse.find? (fun p => p.2 == ids_string)).map (fun p => p.1)

/-- `CharacterDatabase._extract_components`: the non-operator characters of an
IDS string, in order. -/
def CharacterDatabase.extract_components (ids_string : String) : List String :=
  (strChars ids_string).filter (fun c => c ∉ IDS_OPERATORS)

/-- `CharacterDatabase.lookup_by_components`: the `_component_index` bucket for
`tuple(sorted(components))` holds exactly the `(ids, char)` records whose
extracted component multiset sorts to that key; the lookup returns the set of
their characters (empty when the bucket is absent). -/
def CharacterDatabase.lookup_by_components (db : CharacterDatabase)
    (components : List String) : Finset String :=
  ((db.char_to_ids.filter (fun p =>
      sortStrings (CharacterDatabase.extract_components p.2) == sortStrings components)).map
    (fun p => p.1)).toFinset

/-- `CharacterDatabase.lookup_by_composition`: the `_wu_xing_index` bucket for
`tuple(sorted(radical_counts.items()))` holds exactly the characters whose
recursive Wu Xing expansion yields a truthy (non-`None`, non-empty) count
dictionary sorting to that key. -/
def CharacterDatabase.lookup_by_composition (db : CharacterDatabase)
    (radical_counts : List (String × Nat)) : Finset String :=
  ((db.char_to_ids.filter (fun p =>
      match count_wu_xing_radicals db.char_to_ids WU_XING_RADICALS p.1 0 with
      | some cs => !cs.isEmpty && (sortPairs cs == sortPairs radical_counts)
      | none => false)).map (fun p => p.1)).toFinset

/-- The characters `_build_wu_xing_index` registers in the restricted index:
those whose recursive expansion yields a truthy count dictionary. -/
def wuXingIndexChars (idsData : List (String × String)) : Finset String :=
  ((idsData.filter (fun p =>
      match count_wu_xing_radicals idsData WU_XING_RADICALS p.1 0 with
      | some cs => !cs.isEmpty
      | none => false)).map (fun p => p.1)).toFinset

/-- `CharacterDatabase.get_ids`: `_char_to_ids.get(char)`. -/
def CharacterDatabase.get_ids (db : CharacterDatabase) (char : String) : Option String :=
  dictGet db.char_to_ids char

/-! ### validation.py and core.py -/

/-- The CJK code-point ranges of `validation.is_cjk_character`. -/
def cjkRanges : List (Nat × Nat) :=
  [(0x4E00, 0x9FFF), (0x3400, 0x4DBF), (0x20000, 0x2A6DF), (0x2A700, 0x2B73F),
   (0x2B740, 0x2B81F), (0x2B820, 0x2CEAF), (0x2CEB0, 0x2EBEF), (0x2EBF0, 0x2EE5D),
   (0x30000, 0x3134F), (0x31350, 0x323AF), (0x323B0, 0x3347B)]

/-- `validation.is_cjk_character`: a single character within one of the ranges. -/
def is_cjk_character (char : String) : Bool :=
  match char.toList with
  | [c] => cjkRanges.any (fun r => r.1 ≤ c.toNat && c.toNat ≤ r.2)
  | _ => false

/-- `validation.validate_radical`. The simplified-only check calls the external
`hanzidentifier` collaborator, passed in as the oracle `isSimplifiedOnly`. -/
def validate_radical (isSimplifiedOnly : String → Bool) (char : String) :
    Except PyError Unit :=
  if ¬ is_cjk_character char then
    .error (.invalidRadicalError "is not a valid CJK character")
  else if isSimplifiedOnly char then
    .error (.simplifiedChineseError "is simplified Chinese only")
  else .ok ()

/-- `RadicalSet` from `core.py`: the state after a successful `__init__`. -/
structure RadicalSet where
  name : String
  radicals : List String
deriving DecidableEq

/-- `RadicalSet.__init__`: empty list, then duplicates, then per-element
validation, in that order; `len(set(radicals))` is the deduplicated length. -/
def RadicalSet.init (isSimplifiedOnly : String → Bool) (name : String)
    (radicals : List String) : Except PyError RadicalSet :=
  if radicals.isEmpty then
    .error (.valueError "RadicalSet requires at least one radical")
  else if radicals.length ≠ radicals.dedup.length then
    .error (.valueError "RadicalSet cannot contain duplicate radicals")
  else
    match radicals.foldlM (fun _ r => validate_radical isSimplifiedOnly r) () with
    | .error e => .error e
    | .ok _ => .ok ⟨name, radicals⟩

/-! ### tensor.py -/

/-- `TensorResult` from `tensor.py`: `_size` is `len(radical_set)`, kept here as
the derived `size`. Sparse cells are an index-tuple-keyed dictionary. -/
structure TensorResult where
  radical_set : RadicalSet
  rank : Nat
  data : List (List Nat × Finset String)
deriving DecidableEq

def TensorResult.size (t : TensorResult) : Nat := t.radical_set.radicals.length

/-- Argument of `TensorResult.__getitem__`: a bare integer or an index tuple. -/
inductive TensorIndex where
  | int (i : Int)
  | tuple (coords : List Int)

/-- `TensorResult.__getitem__`: a non-tuple index is wrapped as a 1-tuple; each
coordinate is bounds-checked against `_size` (IndexError outside `[0, size)`);
then `_data.get(index, set())`. The tuple's length is never compared to the
rank. -/
def TensorResult.getitem (t : TensorResult) (index : TensorIndex) :
    Except PyError (Finset String) :=
  let coords := match index with
    | .int i => [i]
    | .tuple is_ => is_
  if coords.all (fun i => decide (0 ≤ i) && decide (i < (t.size : Int))) then
    .ok ((dictGet t.data (coords.map Int.toNat)).getD ∅)
  else .error (.indexError "Index out of bounds for dimension with size")

/-- `itertools.product(range(n), repeat=rank)` in iteration order. -/
def allIndexTuples (n : Nat) : Nat → List (List Nat)
  | 0 => [[]]
  | r + 1 => (List.range n).flatMap fun i => (allIndexTuples n r).map fun t => i :: t

/-- One cell of `outer_product`: the Wu Xing branch uses the composition
lookup on `dict(Counter(radicals))`; the enumeration branch folds over the
structures, calling `chars.update(db.lookup_by_ids(ids_string))` — a `str`
result has its characters added, a `None` result raises `TypeError`
(`set.update` requires an iterable) — then unions
`lookup_by_components(radicals)`; otherwise only `lookup_by_components`. -/
def computeCell (db : CharacterDatabase) (is_wu_xing_set : Bool)
    (structures : Option (List IDSStructure)) (radicals : List String) :
    Except PyError (Finset String) :=
  if is_wu_xing_set then
    .ok (db.lookup_by_composition (counterItems radicals))
  else
    match structures with
    | some structs =>
      match structs.foldlM (fun (acc : Finset String) st =>
          match build_ids_string st radicals with
          | .error e => Except.error e
          | .ok ids_string =>
            match db.lookup_by_ids ids_string with
            | some ch => Except.ok (acc ∪ (strChars ch).toFinset)
            | none => Except.error (.typeError "NoneType object is not iterable"))
        (∅ : Finset String) with
      | .error e => .error e
      | .ok chars => .ok (chars ∪ db.lookup_by_components radicals)
    | none => .ok (db.lookup_by_components radicals)

/-- `outer_product` from `tensor.py`: `InvalidRankError` outside `[2, 8]`;
`is_wu_xing_set` iff every radical of the set is a Wu Xing radical; structures
are enumerated once iff the set is open-domain and `rank ≤ 5` (rank ≥ 2 here,
so `enumerate_structures` cannot raise and is `enumAux`); then every index
tuple's cell is computed in iteration order, any cell error aborting the call. -/
def outer_product (db : CharacterDatabase) (radical_set : RadicalSet) (rank : Nat) :
    Except PyError TensorResult :=
  if rank < 2 ∨ rank > 8 then
    .error (.invalidRankError "Rank must be between 2 and 8")
  else
    let n := radical_set.radicals.length
    let is_wu_xing_set := radical_set.radicals.all (fun r => r ∈ WU_XING_RADICALS)
    let structures : Option (List IDSStructure) :=
      if !is_wu_xing_set && decide (rank ≤ 5) then some (enumAux rank) else none
    match (allIndexTuples n rank).foldlM
        (fun (acc : List (List Nat × Finset String)) indices =>
          let radicals := indices.map (fun i => radical_set.radicals.getD i "")
          match computeCell db is_wu_xing_set structures radicals with
          | .error e => Except.error e
          | .ok chars => Except.ok (acc ++ [(indices, chars)]))
        ([] : List (List Nat × Finset String)) with
    | .error e => .error e
    | .ok data => .ok ⟨radical_set, rank, data⟩

/-! ### General lemmas about the enumeration -/

theorem flatMapCongr {α β : Type} {l : List α} {f g : α → List β}
    (h : ∀ a ∈ l, f a = g a) : l.flatMap f = l.flatMap g := by
  induction l with
  | nil => rfl
  | cons x xs ih =>
    simp only [List.flatMap_cons]
    rw [h x (by simp), ih (fun a ha => h a (by simp [ha]))]

@[simp]
theorem componentCountList_nil : componentCountList [] = 0 := rfl

@[simp]
theorem componentCountList_cons (c : IDSStructure) (cs : List IDSStructure) :
    componentCountList (c :: cs) = c.component_count + componentCountList cs := rfl

@[simp]
theorem component_count_leaf (cs : List IDSStructure) :
    (IDSStructure.node none cs).component_count = 1 := rfl

@[simp]
theorem component_count_internal (op : IDSOperator) (cs : List IDSStructure) :
    (IDSStructure.node (some op) cs).component_count = componentCountList cs := rfl

theorem enumBody_congr (e1 e2 : Nat → List IDSStructure) (n : Nat)
    (h : ∀ m, 1 ≤ m → m < n → e1 m = e2 m) : enumBody e1 n = enumBody e2 n := by
  unfold enumBody
  cases hn : (n == 1) with
  | true => simp [hn]
  | false =>
    simp only [hn, Bool.false_eq_true, if_false]
    have hbin : (BINARY_OPS.flatMap fun op =>
        (List.range' 1 (n - 1)).flatMap fun k =>
          (e1 k).flatMap fun left =>
            (e1 (n - k)).map fun right => IDSStructure.node (some op) [left, right]) =
        BINARY_OPS.flatMap fun op =>
          (List.range' 1 (n - 1)).flatMap fun k =>
            (e2 k).flatMap fun left =>
              (e2 (n - k)).map fun right => IDSStructure.node (some op) [left, right] := by
      apply flatMapCongr; intro op _
      apply flatMapCongr; intro k hk
      obtain ⟨hk1, hk2⟩ := List.mem_range'_1.mp hk
      rw [h k hk1 (by omega), h (n - k) (by omega) (by omega)]
    rw [hbin]
    by_cases h3 : n ≥ 3
    · simp only [if_pos h3]
      have hter : (TERNARY_OPS.flatMap fun op =>
          (List.range' 1 (n - 2)).flatMap fun i =>
            (List.range' 1 (n - i - 1)).flatMap fun j =>
              let k := n - i - j
              if k < 1 then [] else
                (e1 i).flatMap fun left =>
                  (e1 j).flatMap fun mid =>
                    (e1 k).map fun right =>
                      IDSStructure.node (some op) [left, mid, right]) =
          TERNARY_OPS.flatMap fun op =>
            (List.range' 1 (n - 2)).flatMap fun i =>
              (List.range' 1 (n - i - 1)).flatMap fun j =>
                let k := n - i - j
                if k < 1 then [] else
                  (e2 i).flatMap fun left =>
                    (e2 j).flatMap fun mid =>
                      (e2 k).map fun right =>
                        IDSStructure.node (some op) [left, mid, right] := by
        apply flatMapCongr; intro op _
        apply flatMapCongr; intro i hi
        obtain ⟨hi1, hi2⟩ := List.mem_range'_1.mp hi
        apply flatMapCongr; intro j hj
        obtain ⟨hj1, hj2⟩ := List.mem_range'_1.mp hj
        simp only []
        rw [if_neg (by omega), if_neg (by omega),
          h i hi1 (by omega), h j hj1 (by omega),
          h (n - i - j) (by omega) (by omega)]
      rw [hter]
    · simp [h3]

theorem enumAuxFuel_stable (n : Nat) : ∀ (f f' : Nat), n ≤ f → n ≤ f' →
    enumAuxFuel f n = enumAuxFuel f' n := by
  induction n using Nat.strong_induction_on with
  | _ n ih =>
    intro f f' hf hf'
    cases n with
    | zero => cases f <;> cases f' <;> rfl
    | succ m =>
      cases f with
      | zero => omega
      | succ fa =>
        cases f' with
        | zero => omega
        | succ fb =>
          show enumBody (enumAuxFuel fa) (m + 1) = enumBody (enumAuxFuel fb) (m + 1)
          apply enumBody_congr
          intro k hk1 hkn
          exact ih k hkn fa fb (by omega) (by omega)

theorem enumAux_unfold (n : Nat) : enumAux n = enumBody enumAux n := by
  cases n with
  | zero => rfl
  | succ m =>
    show enumBody (enumAuxFuel m) (m + 1) = enumBody enumAux (m + 1)
    apply enumBody_congr
    intro k hk1 hk2
    exact enumAuxFuel_stable k m k (by omega) le_rfl

theorem enumAux_component_count (n : Nat) : 1 ≤ n →
    ∀ s ∈ enumAux n, s.component_count = n := by
  induction n using Nat.strong_induction_on with
  | _ n ih =>
    intro hn s hs
    rw [enumAux_unfold] at hs
    unfold enumBody at hs
    by_cases h1 : n = 1
    · subst h1
      simp only [beq_self_eq_true, if_true, List.mem_singleton] at hs
      subst hs
      rfl
    · rw [if_neg (by simpa using h1)] at hs
      rcases List.mem_append.mp hs with hb | ht
      · simp only [List.mem_flatMap, List.mem_map, List.mem_range'_1] at hb
        obtain ⟨op, -, k, ⟨hk1, hk2⟩, left, hleft, right, hright, rfl⟩ := hb
        have hL : left.component_count = k := ih k (by omega) (by omega) left hleft
        have hR : right.component_count = n - k := ih (n - k) (by omega) (by omega) right hright
        simp [hL, hR]
        omega
      · by_cases h3 : n ≥ 3
        · rw [if_pos h3] at ht
          simp only [List.mem_flatMap, List.mem_range'_1] at ht
          obtain ⟨op, -, i, ⟨hi1, hi2⟩, j, ⟨hj1, hj2⟩, hmem⟩ := ht
          rw [if_neg (by omega)] at hmem
          simp only [List.mem_flatMap, List.mem_map] at hmem
          obtain ⟨left, hleft, mid, hmid, right, hright, rfl⟩ := hmem
          have hL : left.component_count = i := ih i (by omega) (by omega) left hleft
          have hM : mid.component_count = j := ih j (by omega) (by omega) mid hmid
          have hR : right.component_count = n - i - j :=
            ih (n - i - j) (by omega) (by omega) right hright
          simp [hL, hM, hR]
          omega
        · rw [if_neg h3] at ht
          simp at ht

theorem enumAux_ne_nil (n : Nat) : 1 ≤ n → enumAux n ≠ [] := by
  induction n using Nat.strong_induction_on with
  | _ n ih =>
    intro hn
    by_cases h1 : n = 1
    · subst h1
      have h : enumAux 1 = [LEAF] := rfl
      rw [h]
      simp
    · obtain ⟨r, hr⟩ : ∃ r, r ∈ enumAux (n - 1) := by
        have hne := ih (n - 1) (by omega) (by omega)
        exact List.exists_mem_of_ne_nil _ hne
      apply List.ne_nil_of_mem (a := IDSStructure.node (some ⟨"⿰", 2, "LEFT_RIGHT"⟩) [LEAF, r])
      rw [enumAux_unfold]
      unfold enumBody
      rw [if_neg (by simpa using h1)]
      apply List.mem_append_left
      simp only [List.mem_flatMap, List.mem_map, List.mem_range'_1]
      refine ⟨⟨"⿰", 2, "LEFT_RIGHT"⟩, by simp [BINARY_OPS], 1, ⟨le_rfl, by omega⟩,
        LEAF, ?_, r, hr, rfl⟩
      show LEAF ∈ enumAux 1
      have h : enumAux 1 = [LEAF] := rfl
      rw [h]
      exact List.mem_singleton_self _

/-! ### Refinement of build_ids_string against the consuming serialization -/

theorem serializeSpec_leaf (cs : List IDSStructure) (rads : List String) :
    serializeSpec (.node none cs) rads = (rads.headD "", rads.tail) := rfl

theorem serializeSpec_internal (op : IDSOperator) (cs : List IDSStructure)
    (rads : List String) :
    serializeSpec (.node (some op) cs) rads =
      (op.symbol ++ (serializeSpecList cs rads).1, (serializeSpecList cs rads).2) := rfl

theorem serializeSpecList_nil (rads : List String) :
    serializeSpecList [] rads = ("", rads) := rfl

theorem serializeSpecList_cons (c : IDSStructure) (cs : List IDSStructure)
    (rads : List String) :
    serializeSpecList (c :: cs) rads =
      ((serializeSpec c rads).1 ++ (serializeSpecList cs (serializeSpec c rads).2).1,
        (serializeSpecList cs (serializeSpec c rads).2).2) := rfl

mutual
theorem buildAux_refines (st : IDSStructure) (radIter : List String) (idx : Nat)
    (h : idx + st.component_count ≤ radIter.length) :
    buildAux st radIter idx =
      Except.ok ((serializeSpec st (radIter.drop idx)).1, idx + st.component_count) ∧
    (serializeSpec st (radIter.drop idx)).2 = radIter.drop (idx + st.component_count) := by
  match st with
  | .node none cs =>
    have hlt : idx < radIter.length := by
      have h2 := h
      simp only [component_count_leaf] at h2
      omega
    have hdrop : radIter.drop idx = radIter[idx] :: radIter.drop (idx + 1) :=
      List.drop_eq_getElem_cons hlt
    have hget : radIter[idx]? = some radIter[idx] := List.getElem?_eq_getElem hlt
    constructor
    · show (match radIter[idx]? with
        | some r => Except.ok (r, idx + 1)
        | none => Except.error (PyError.indexError "list index out of range")) = _
      rw [hget]
      rw [serializeSpec_leaf, component_count_leaf, hdrop]
      rfl
    · rw [serializeSpec_leaf, component_count_leaf, hdrop]
      rfl
  | .node (some op) cs =>
    have hcs := buildAuxList_refines cs radIter idx (by simpa using h)
    constructor
    · show (match buildAuxList cs radIter idx with
        | .error e => Except.error e
        | .ok (s, idx') => Except.ok (op.symbol ++ s, idx')) = _
      rw [hcs.1, serializeSpec_internal, component_count_internal]
    · rw [serializeSpec_internal, component_count_internal]
      exact hcs.2

theorem buildAuxList_refines (cs : List IDSStructure) (radIter : List String) (idx : Nat)
    (h : idx + componentCountList cs ≤ radIter.length) :
    buildAuxList cs radIter idx =
      Except.ok ((serializeSpecList cs (radIter.drop idx)).1, idx + componentCountList cs) ∧
    (serializeSpecList cs (radIter.drop idx)).2 = radIter.drop (idx + componentCountList cs) := by
  match cs with
  | [] =>
    constructor
    · show Except.ok ("", idx) = _
      rw [serializeSpecList_nil]
      rfl
    · rw [serializeSpecList_nil, componentCountList_nil]
      rfl
  | c :: rest =>
    have hc := buildAux_refines c radIter idx (by
      simp only [componentCountList_cons] at h
      omega)
    have hrest := buildAuxList_refines rest radIter (idx + c.component_count) (by
      simp only [componentCountList_cons] at h
      omega)
    constructor
    · show (match buildAux c radIter idx with
        | .error e => Except.error e
        | .ok (s1, idx1) =>
          match buildAuxList rest radIter idx1 with
          | .error e => Except.error e
          | .ok (s2, idx2) => Except.ok (s1 ++ s2, idx2)) = _
      rw [hc.1]
      show (match buildAuxList rest radIter (idx + c.component_count) with
        | .error e => Except.error e
        | .ok (s2, idx2) =>
          Except.ok ((serializeSpec c (radIter.drop idx)).1 ++ s2, idx2)) = _
      rw [hrest.1]
      rw [serializeSpecList_cons, componentCountList_cons, hc.2, Nat.add_assoc]
    · rw [serializeSpecList_cons, componentCountList_cons, hc.2, hrest.2, Nat.add_assoc]
end

/-! ### Restricted-index membership helper -/

theorem notMem_wuXingIndex_of_none (idsData : List (String × String)) (char : String)
    (h : count_wu_xing_radicals idsData WU_XING_RADICALS char 0 = none) :
    char ∉ wuXingIndexChars idsData := by
  unfold wuXingIndexChars
  simp only [List.mem_toFinset, List.mem_map, List.mem_filter]
  rintro ⟨p, ⟨-, hpred⟩, rfl⟩
  rw [h] at hpred
  simp at hpred

/-! ### Claims -/

/-- C3: for every integer `n ≥ 1`, `enumerate_structures n` succeeds with a
non-empty list all of whose trees have `component_count = n`, and it fails with
the domain error (Python `ValueError`, the spec's `InvalidDomain`) exactly when
`n < 1`. Determinism and stability across repeated calls hold because the
embedded function is pure; `lru_cache` only memoises it. -/
theorem enumerate_structures_domain_spec (n : Int) :
    (n < 1 → enumerate_structures n = .error (.valueError "n must be at least 1")) ∧
    (1 ≤ n → ∃ l, enumerate_structures n = .ok l ∧ l ≠ [] ∧
      ∀ s ∈ l, (s.component_count : Int) = n) := by
  constructor
  · intro h
    simp [enumerate_structures, h]
  · intro h
    refine ⟨enumAux n.toNat, ?_, ?_, ?_⟩
    · simp [enumerate_structures, show ¬ n < 1 by omega]
    · exact enumAux_ne_nil n.toNat (by omega)
    · intro s hs
      rw [enumAux_component_count n.toNat (by omega) s hs]
      omega

/-- Witness for C3 at `n = 0` (failure) and `n = 2` (success). -/
theorem enumerate_structures_domain_spec_witness :
    enumerate_structures 0 = .error (.valueError "n must be at least 1") ∧
    ∃ l, enumerate_structures 2 = .ok l ∧ l ≠ [] ∧
      ∀ s ∈ l, (s.component_count : Int) = 2 :=
  ⟨(enumerate_structures_domain_spec 0).1 (by omega),
   (enumerate_structures_domain_spec 2).2 (by omega)⟩

/-- C4: `enumerate_structures 1` has exactly 1 element; `enumerate_structures 2`
has exactly 10 elements, one per binary operator; `enumerate_structures 3` has
202 = 10 × (T(1)×T(2) + T(2)×T(1)) + 2 elements, the ordered splits (1,2) and
(2,1) contributing 100 each (never merged) and the ternary operators 2. -/
theorem enumerate_structures_counts :
    (enumerate_structures 1).map List.length = .ok 1 ∧
    (enumerate_structures 2).map List.length = .ok 10 ∧
    (∀ op ∈ BINARY_OPS,
      (enumAux 2).countP (fun s => decide (s.operator = some op)) = 1) ∧
    (enumerate_structures 3).map List.length = .ok 202 ∧
    (enumAux 3).countP
      (fun s => decide (s.children.map IDSStructure.is_leaf = [true, false])) = 100 ∧
    (enumAux 3).countP
      (fun s => decide (s.children.map IDSStructure.is_leaf = [false, true])) = 100 ∧
    (enumAux 3).countP (fun s => s.operator.any (fun op => op.arity == 3)) = 2 := by
  refine ⟨by decide, by decide, by decide, by decide, by decide, by decide, by decide⟩

/-- C7: `build_ids_string` fails with the arity error (Python `ValueError`, the
spec's `MismatchedArity`) exactly when the component-list length differs from
the tree's `component_count`; on a match it succeeds with the pre-order
serialization that consumes components left to right per leaf
(`serializeSpec`); in particular a leaf with a one-component list returns that
component unchanged. -/
theorem build_ids_string_correct (st : IDSStructure) (radicals : List String) :
    (radicals.length ≠ st.component_count →
      build_ids_string st radicals =
        .error (.valueError "Structure requires component_count radicals")) ∧
    (radicals.length = st.component_count →
      build_ids_string st radicals = .ok (serializeSpec st radicals).1) ∧
    (∀ c : String, build_ids_string LEAF [c] = .ok c) := by
  refine ⟨?_, ?_, fun c => rfl⟩
  · intro h
    unfold build_ids_string
    rw [if_pos h]
  · intro h
    unfold build_ids_string
    rw [if_neg (by omega)]
    have hok := (buildAux_refines st radicals 0 (by omega)).1
    rw [hok]
    rw [List.drop_zero]

/-- Witness for C7: a leaf with one component, a mismatching list, and a
binary tree with a matching list. -/
theorem build_ids_string_correct_witness :
    build_ids_string LEAF ["金"] = .ok "金" ∧
    build_ids_string LEAF ["金", "木"] =
      .error (.valueError "Structure requires component_count radicals") ∧
    build_ids_string (.node (some ⟨"⿰", 2, "LEFT_RIGHT"⟩) [LEAF, LEAF]) ["金", "木"] =
      .ok (serializeSpec (.node (some ⟨"⿰", 2, "LEFT_RIGHT"⟩) [LEAF, LEAF])
        ["金", "木"]).1 :=
  ⟨(build_ids_string_correct LEAF ["金"]).2.2 "金",
   (build_ids_string_correct LEAF ["金", "木"]).1 (by decide),
   (build_ids_string_correct (.node (some ⟨"⿰", 2, "LEFT_RIGHT"⟩) [LEAF, LEAF])
     ["金", "木"]).2.1 (by decide)⟩

/-- C5: the recursive restricted-alphabet expansion is total by construction
(the embedding needs no partiality), returns the not-expandable result `none`
whenever the depth bound 10 is exceeded, and a character whose expansion is
`none` is silently excluded from the restricted index; on the concrete cyclic
record 甲 → ⿰甲甲 the expansion terminates with `none` and index construction
completes with an empty index instead of aborting. -/
theorem count_wu_xing_radicals_depth_bound :
    (∀ (idsData : List (String × String)) (stop : List String) (char : String)
      (depth : Nat), 10 < depth →
        count_wu_xing_radicals idsData stop char depth = none) ∧
    (∀ (idsData : List (String × String)) (char : String),
      count_wu_xing_radicals idsData WU_XING_RADICALS char 0 = none →
        char ∉ wuXingIndexChars idsData) ∧
    (count_wu_xing_radicals [("甲", "⿰甲甲")] WU_XING_RADICALS "甲" 0 = none ∧
      wuXingIndexChars [("甲", "⿰甲甲")] = ∅) := by
  refine ⟨?_, ?_, by decide, by decide⟩
  · intro idsData stop char depth h
    unfold count_wu_xing_radicals
    rw [show 11 - depth = 0 by omega]
    rfl
  · intro idsData char h
    exact notMem_wuXingIndex_of_none idsData char h

/-- Witness for C5: the depth bound fires at depth 11, and a character whose
expansion fails is absent from the restricted index. -/
theorem count_wu_xing_radicals_depth_bound_witness :
    count_wu_xing_radicals [] WU_XING_RADICALS "金" 11 = none ∧
    "乙" ∉ wuXingIndexChars [("乙", "⿰乙乙")] :=
  ⟨count_wu_xing_radicals_depth_bound.1 [] WU_XING_RADICALS "金" 11 (by omega),
   count_wu_xing_radicals_depth_bound.2.1 [("乙", "⿰乙乙")] "乙" (by decide)⟩

/-- C10: a character outside the stop alphabet whose recorded decomposition
does not start with an IDS operator (for example an alias recorded as a single
other character) is classified not expandable at every depth and is excluded
from the restricted index, even when that decomposition consists only of
stop-alphabet components. -/
theorem count_wu_xing_radicals_nonoperator_head (idsData : List (String × String))
    (char c0 : String) (rest : List String)
    (hstop : char ∉ WU_XING_RADICALS)
    (hids : strChars ((dictGet idsData char).getD "") = c0 :: rest)
    (hop : c0 ∉ IDS_OPERATORS) :
    (∀ depth : Nat,
      count_wu_xing_radicals idsData WU_XING_RADICALS char depth = none) ∧
    char ∉ wuXingIndexChars idsData := by
  have hnone : ∀ depth : Nat,
      count_wu_xing_radicals idsData WU_XING_RADICALS char depth = none := by
    intro depth
    unfold count_wu_xing_radicals
    cases h11 : 11 - depth with
    | zero => rfl
    | succ f =>
      unfold countWuXingAux
      rw [if_neg hstop]
      simp only [hids]
      rw [if_pos hop]
  exact ⟨hnone, notMem_wuXingIndex_of_none idsData char (hnone 0)⟩

/-- Witness for C10: 樹 recorded as the bare alias decomposition "木" (a pure
stop-alphabet string with no leading operator) is not expandable and is
excluded from the restricted index. -/
theorem count_wu_xing_radicals_nonoperator_head_witness :
    count_wu_xing_radicals [("樹", "木")] WU_XING_RADICALS "樹" 0 = none ∧
    "樹" ∉ wuXingIndexChars [("樹", "木")] :=
  ⟨(count_wu_xing_radicals_nonoperator_head [("樹", "木")] "樹" "木" []
      (by decide) (by decide) (by decide)).1 0,
   (count_wu_xing_radicals_nonoperator_head [("樹", "木")] "樹" "木" []
      (by decide) (by decide) (by decide)).2⟩

/-- C2 (counter-evidence): `lookup_by_ids` does not return the set of all
characters sharing the decomposition string. On a database recording both
林 (U+6797) and the compatibility ideograph U+F9F4 with decomposition ⿰木木,
it returns only the later character (the reverse index is last-write-wins),
and on a string recorded for no character it returns `None` rather than an
empty set — the repository's own tests
(`test_should_return_empty_set_when_ids_not_found`) assert a set. -/
theorem lookup_by_ids_single_char_not_set :
    (CharacterDatabase.mk [("林", "⿰木木"), ("林", "⿰木木")]).lookup_by_ids
      "⿰木木" = some "林" ∧
    (CharacterDatabase.mk [("林", "⿰木木"), ("林", "⿰木木")]).lookup_by_ids
      "⿱木木" = none := by
  refine ⟨by decide, by decide⟩

/-- C1 (counter-evidence): the open-domain rank-≤-5 strategy of `outer_product`
does not succeed whenever some enumerated decomposition string is absent from
the exact index: `chars.update(db.lookup_by_ids(ids_string))` receives `None`
and Python raises `TypeError`. Concretely, for the open-domain set [日, 月] at
rank 2, the very first cell (日, 日) already aborts the whole call on the
shape ⿴ (the database records ⿰日日 and ⿱日日 but not ⿴日日). -/
theorem outer_product_open_domain_type_error :
    outer_product (CharacterDatabase.mk [("明", "⿰日月"), ("昌", "⿱日日"), ("昍", "⿰日日")])
      ⟨"test", ["日", "月"]⟩ 2 =
      .error (.typeError "NoneType object is not iterable") := by
  decide

/-- C6: `lookup_by_components` is order-insensitive — permuting the component
list never changes the returned character set, because the lookup key is the
sorted component tuple and sorting is invariant under permutation. -/
theorem lookup_by_components_perm_invariant (db : CharacterDatabase)
    (components components' : List String) (h : List.Perm components components') :
    db.lookup_by_components components = db.lookup_by_components components' := by
  unfold CharacterDatabase.lookup_by_components
  rw [sortStrings_perm_eq h]

/-- Witness for C6: swapping a two-component list. -/
theorem lookup_by_components_perm_invariant_witness :
    (CharacterDatabase.mk [("明", "⿰日月")]).lookup_by_components ["日", "月"] =
      (CharacterDatabase.mk [("明", "⿰日月")]).lookup_by_components ["月", "日"] :=
  lookup_by_components_perm_invariant (CharacterDatabase.mk [("明", "⿰日月")])
    ["日", "月"] ["月", "日"] (by decide)

/-- C8 (counterexample): the two `RadicalSet` construction violations do not
raise distinguishable typed errors. Both the empty list and the duplicated
list [金, 金] raise the same Python exception type, `ValueError`; only the
messages differ. -/
theorem radical_set_error_types_not_distinct :
    ∃ e1 e2 : PyError,
      RadicalSet.init (fun _ => false) "x" [] = .error e1 ∧
      RadicalSet.init (fun _ => false) "x" ["金", "金"] = .error e2 ∧
      pyErrorKind e1 = "ValueError" ∧ pyErrorKind e2 = "ValueError" :=
  ⟨.valueError "RadicalSet requires at least one radical",
   .valueError "RadicalSet cannot contain duplicate radicals",
   by decide, by decide, rfl, rfl⟩

/-- C8 (amended): `RadicalSet` construction fails on the empty list with
`ValueError("RadicalSet requires at least one radical")` and on a list holding
the same component twice with
`ValueError("RadicalSet cannot contain duplicate radicals")` — the two
violations are distinguished by message, not by distinct exception types, for
every validation oracle, name and component. -/
theorem radical_set_construction_failures (isSimplifiedOnly : String → Bool)
    (name A : String) :
    RadicalSet.init isSimplifiedOnly name [] =
      .error (.valueError "RadicalSet requires at least one radical") ∧
    RadicalSet.init isSimplifiedOnly name [A, A] =
      .error (.valueError "RadicalSet cannot contain duplicate radicals") := by
  constructor
  · rfl
  · have h0 : ([A] : List String).dedup = [A] := by
      rw [List.dedup_cons_of_not_mem (by simp)]
      rfl
    have hd : ([A, A] : List String).dedup = [A] := by
      rw [List.dedup_cons_of_mem (List.mem_singleton_self A), h0]
    unfold RadicalSet.init
    rw [if_neg (by simp), if_pos (by rw [hd]; simp)]

/-- Witness for the amended C8 statement at a concrete oracle, name and
component. -/
theorem radical_set_construction_failures_witness :
    RadicalSet.init (fun _ => false) "五行" [] =
      .error (.valueError "RadicalSet requires at least one radical") ∧
    RadicalSet.init (fun _ => false) "五行" ["金", "金"] =
      .error (.valueError "RadicalSet cannot contain duplicate radicals") :=
  radical_set_construction_failures (fun _ => false) "五行" "金"

/-- C9: `TensorResult` indexed access performs no rank/length check on the
index tuple: any tuple whose coordinates all lie in `[0, size)` — shorter or
longer than the rank included — yields the stored cell, or the empty set when
no cell is stored at that tuple, never an error; and a bare integer index `i`
is handled exactly as the one-element tuple `(i,)`. -/
theorem tensor_getitem_no_rank_check (t : TensorResult) (coords : List Int)
    (h : ∀ i ∈ coords, 0 ≤ i ∧ i < (t.size : Int)) :
    t.getitem (.tuple coords) =
      .ok ((dictGet t.data (coords.map Int.toNat)).getD ∅) ∧
    ∀ i : Int, t.getitem (.int i) = t.getitem (.tuple [i]) := by
  constructor
  · unfold TensorResult.getitem
    have hall : coords.all (fun i => decide (0 ≤ i) && decide (i < (t.size : Int))) = true := by
      rw [List.all_eq_true]
      intro i hi
      have := h i hi
      simp [this.1, this.2]
    rw [if_pos hall]
  · intro i
    rfl

/-- Witness for C9: a rank-2 result accessed with a 3-tuple and a 1-tuple of
in-range coordinates, and with a bare integer. -/
theorem tensor_getitem_no_rank_check_witness :
    TensorResult.getitem ⟨⟨"t", ["金", "木"]⟩, 2, [([0, 0], {"鍂"})]⟩ (.tuple [0, 1, 0]) =
      .ok ((dictGet ([([0, 0], ({"鍂"} : Finset String))])
        ([0, 1, 0].map Int.toNat)).getD ∅) ∧
    TensorResult.getitem ⟨⟨"t", ["金", "木"]⟩, 2, [([0, 0], {"鍂"})]⟩ (.int 1) =
      TensorResult.getitem ⟨⟨"t", ["金", "木"]⟩, 2, [([0, 0], {"鍂"})]⟩ (.tuple [1]) :=
  ⟨(tensor_getitem_no_rank_check ⟨⟨"t", ["金", "木"]⟩, 2, [([0, 0], {"鍂"})]⟩
      [0, 1, 0] (by decide)).1,
   (tensor_getitem_no_rank_check ⟨⟨"t", ["金", "木"]⟩, 2, [([0, 0], {"鍂"})]⟩
      [] (by decide)).2 1⟩
